import Mathlib

/-!
Shallow embedding of `srv.py`, a mock REST API for a managed-cache
provisioning service (Flask/flask-restful, one file).

Modelling conventions:
* IPv4 addresses are modelled as natural numbers (the numeric value of the
  dotted-quad string); the Python code compares address *strings*, and the
  string rendering of distinct numeric addresses inside the subnet is
  injective, so numeric equality is faithful.
* `memsize` is a Python float used only for storage, a truthiness test
  (`if args["memsize"]`) and JSON echo; no arithmetic is performed, so `Rat`
  (exact values such as 1/2 and 6/5) is a faithful carrier.
* The global dict `GROUPS` is modelled as an association list
  `List (String × GroupRec)`.  Python dict insertion order is not modelled:
  no behaviour in scope depends on enumeration order (lookups are by key and
  the allocator only takes a membership test over all stored addresses), so
  `storeInsert` removes any old binding and appends the new one.
* `uuid.uuid4().hex` is nondeterministic; the generated identifier is passed
  to `create_group` as an explicit argument.
* `allocate_ip` returning Python `None` on subnet exhaustion is modelled as
  `Option.none`; `create_group` propagates it as `none` (the spec scopes all
  claims to "until allocator exhaustion").
* HTTP handlers are pure functions from the store and the parsed request to
  `Except ApiError result`; an `ApiError` result leaves the store unchanged.
-/

/-- Numeric value of the subnet base 172.20.0.0 (from `ALLOC_SUBNET = "172.20.0.0/16"`). -/
def allocSubnetBase : Nat := 172 * 2 ^ 24 + 20 * 2 ^ 16

/-- Number of addresses in the /16 subnet; Python iterates `for addr in net`
over all of them, network and broadcast addresses included. -/
def allocSubnetSize : Nat := 2 ^ 16

/-- The subnet network address `172.20.0.0`, pre-seeded into `allocated_ips`
by `allocate_ip` (`ALLOC_SUBNET.split("/")[0]`), hence never allocated. -/
def netAddr : Nat := allocSubnetBase

/-- An address lies in the allocation subnet 172.20.0.0/16. -/
def inSubnet (a : Nat) : Prop := allocSubnetBase ≤ a ∧ a < allocSubnetBase + allocSubnetSize

instance (a : Nat) : Decidable (inSubnet a) := by unfold inSubnet; infer_instance

/-- One allocated endpoint of a group (the per-instance dicts built by `create_group`). -/
structure InstanceRec where
  id : String
  name : String
  addr : Nat
  host : String
deriving Repr, DecidableEq

/-- The embedded health-state triple (`state` field of a group). -/
structure StateRec where
  id : String
  name : String
  type : String
deriving Repr, DecidableEq

/-- A stored group record, as built by `create_group`. -/
structure GroupRec where
  id : String
  name : String
  memsize : Rat
  type : String
  state : StateRec
  instances : List InstanceRec
deriving Repr, DecidableEq

/-- The in-memory store `GROUPS`, a dict from group id to group record. -/
abbrev Store : Type := List (String × GroupRec)

/-- `GROUPS[group_id]` as a total lookup: the value bound to the key, if any. -/
def storeLookup (s : Store) (group_id : String) : Option GroupRec :=
  (s.find? (fun p => p.1 == group_id)).map (fun p => p.2)

/-- `del GROUPS[group_id]`: drop the binding for the key. -/
def storeDelete (s : Store) (group_id : String) : Store :=
  s.filter (fun p => !(p.1 == group_id))

/-- `GROUPS[group_id] = group`: bind the key to the record (replacing any old
binding; see the header for why dict order is not preserved). -/
def storeInsert (s : Store) (group_id : String) (g : GroupRec) : Store :=
  storeDelete s group_id ++ [(group_id, g)]

/-- All the keys of the store. -/
def storeKeys (s : Store) : List String := s.map (fun p => p.1)

/-- Every `addr` recorded on any instance of any stored group, in store order
(the set `allocated_ips` is the union of these with the network address). -/
def storeAddrs (s : Store) : List Nat :=
  s.flatMap (fun p => p.2.instances.map (fun i => i.addr))

/-- The membership test `str(addr) not in except_list` of `allocate_ip`:
an address is available when it is not the network address, not recorded on
any stored instance, and not in the callers `skip` list. -/
def addrAvailable (s : Store) (skip : List Nat) (a : Nat) : Bool :=
  !(a == netAddr || (storeAddrs s).contains a || skip.contains a)

/-- First `n` with `start ≤ n < start + fuel` and `p n`, scanning upward
(the `for addr in net` loop of `allocate_ip`). -/
def scanFirst (p : Nat → Bool) : Nat → Nat → Option Nat
  | _, 0 => none
  | start, fuel + 1 => if p start then some start else scanFirst p (start + 1) fuel

/-- `allocate_ip(skip)`: scan the subnet in ascending numeric order and return
the first available address, or `none` (Python `None`) on exhaustion. -/
def allocate_ip (s : Store) (skip : List Nat) : Option Nat :=
  scanFirst (addrAvailable s skip) allocSubnetBase allocSubnetSize

/-- `create_group(name, memsize)`: allocate two addresses (the second
allocation skipping the first) and build the group record.  `group_id`
stands for the fresh `uuid.uuid4().hex`.  On allocator exhaustion the Python
code would record a null address; that out-of-scope case is modelled as
`none`. -/
def create_group (s : Store) (group_id name : String) (memsize : Rat) :
    Option GroupRec :=
  match allocate_ip s [] with
  | none => none
  | some ip1 =>
    match allocate_ip s [ip1] with
    | none => none
    | some ip2 =>
      some { id := group_id
             name := name
             memsize := memsize
             type := "memcached"
             state := { id := "1", name := "OK", type := "passing" }
             instances := [ { id := group_id ++ "_1", name := "1", addr := ip1,
                              host := "localhost" },
                            { id := group_id ++ "_2", name := "2", addr := ip2,
                              host := "localhost" } ] }

/-- The error outcomes a handler can signal. -/
inductive ApiError where
  /-- `abort(404, message=...)`: unknown identifier. -/
  | notFound (message : String)
  /-- HTTP 400: request validation failure (missing required parameter). -/
  | validation (message : String)
  /-- An unhandled Python `KeyError` escaping the handler (HTTP 500). -/
  | keyError (key : String)
  /-- Allocator exhaustion during create: modelled as a distinguished fatal
  outcome (the Python code would store null addresses; out of scope). -/
  | exhausted
deriving Repr, DecidableEq

/-- `abort_if_group_doesnt_exist(group_id)`. -/
def abort_if_group_doesnt_exist (s : Store) (group_id : String) :
    Except ApiError Unit :=
  if (storeLookup s group_id).isSome then Except.ok ()
  else Except.error (ApiError.notFound ("group " ++ group_id ++ " doesn\x27t exist"))

/-- `Group.get`: check existence (404 on unknown id), then return the record. -/
def Group_get (s : Store) (group_id : String) : Except ApiError GroupRec := do
  abort_if_group_doesnt_exist s group_id
  match storeLookup s group_id with
  | some g => pure g
  | none => Except.error (ApiError.keyError group_id)

/-- `Group.delete`: check existence (404 on unknown id), then remove the
binding and answer with the empty body and status 204. -/
def Group_delete (s : Store) (group_id : String) :
    Except ApiError (String × Nat × Store) := do
  abort_if_group_doesnt_exist s group_id
  pure ("", 204, storeDelete s group_id)

/-- A parsed PUT request body: each field is `none` when absent.
Modelled from the spec: the request-parsing layer (`flask_restful.reqparse`)
is third-party code not in `src/`; per the spec the PUT parser accepts an
optional `name` (Python `None` when absent) and an optional float `memsize`
defaulting to 0.5 when absent. -/
structure PutBody where
  name : Option String
  memsize : Option Rat
deriving Repr, DecidableEq

/-- The parsed arguments of `Group.put` after defaults are applied:
`args["name"]` (None when absent) and `args["memsize"]` (default 0.5). -/
structure PutArgs where
  name : Option String
  memsize : Rat
deriving Repr, DecidableEq

/-- `parser.parse_args()` for the PUT parser. -/
def parsePutArgs (b : PutBody) : PutArgs :=
  { name := b.name, memsize := b.memsize.getD (1 / 2) }

/-- The step `if args["name"]: group["name"] = args["name"]` — applied only
when the parsed name is truthy, i.e. present (not Python `None`) and
nonempty. -/
def applyName (g : GroupRec) (name : Option String) : GroupRec :=
  match name with
  | some n => if n = "" then g else { g with name := n }
  | none => g

/-- The step `if args["memsize"]: group["memsize"] = args["memsize"]` —
applied only when the parsed memsize is truthy, i.e. nonzero. -/
def applyMemsize (g : GroupRec) (memsize : Rat) : GroupRec :=
  if memsize = 0 then g else { g with memsize := memsize }

/-- `Group.put`: parse the body, read `GROUPS[group_id]` (an unhandled
`KeyError` on an unknown id — the handler performs no existence check),
apply `name` if truthy (present and nonempty), apply `memsize` if truthy
(nonzero), store the record back and answer with status 201. -/
def Group_put (s : Store) (group_id : String) (body : PutBody) :
    Except ApiError (GroupRec × Nat × Store) :=
  let args := parsePutArgs body
  match storeLookup s group_id with
  | none => Except.error (ApiError.keyError group_id)
  | some group =>
    let group2 := applyMemsize (applyName group args.name) args.memsize
    Except.ok (group2, 201, storeInsert s group_id group2)

/-- A parsed POST request body: each field is `none` when absent. -/
structure PostBody where
  name : Option String
  memsize : Option Rat
deriving Repr, DecidableEq

/-- The POST parser handling of the required `name` argument.
Modelled from the spec: `flask_restful.reqparse` with `required=True` is
third-party code not in `src/`; per the spec, a missing or empty `name`
"triggers a validation failure returned to the caller" (HTTP 400). -/
def parsePostName (name : Option String) : Except ApiError String :=
  match name with
  | none => Except.error (ApiError.validation "Missing required parameter name")
  | some n =>
    if n = "" then Except.error (ApiError.validation "Missing required parameter name")
    else Except.ok n

/-- `GroupList.post`: parse (`name` required, `memsize` defaulting to 0.5),
build a group via `create_group` under a fresh identifier `group_id`, insert
it into the store and answer it with status 201. -/
def GroupList_post (s : Store) (group_id : String) (body : PostBody) :
    Except ApiError (GroupRec × Nat × Store) := do
  let name ← parsePostName body.name
  let memsize := body.memsize.getD (1 / 2)
  match create_group s group_id name memsize with
  | none => Except.error ApiError.exhausted
  | some g => pure (g, 201, storeInsert s g.id g)

/-- One client-visible mutating operation; the identifier argument of
`create` stands for the `uuid.uuid4().hex` drawn during that request. -/
inductive Op where
  | create (group_id name : String) (memsize : Rat)
  | put (group_id : String) (body : PutBody)
  | delete (group_id : String)

/-- Apply one operation to the store; a failing operation (error result)
leaves the store unchanged. -/
def applyOp (s : Store) : Op → Store
  | Op.create gid name memsize =>
    match create_group s gid name memsize with
    | some g => storeInsert s g.id g
    | none => s
  | Op.put gid body =>
    match Group_put s gid body with
    | Except.ok (_, _, s1) => s1
    | Except.error _ => s
  | Op.delete gid =>
    match Group_delete s gid with
    | Except.ok (_, _, s1) => s1
    | Except.error _ => s

/-- The bootstrap store: two seeded example groups (`group1`, `group2` in the
source), with the two drawn identifiers as parameters. -/
def seedStore (gid1 gid2 : String) : Store :=
  applyOp (applyOp [] (Op.create gid1 "memcached for Bob" (1 / 2)))
    (Op.create gid2 "memcached for Alice" (6 / 5))

/-- The store invariant maintained by every operation: group identifiers are
pairwise distinct keys, and no two stored instances share an address. -/
def storeInv (s : Store) : Prop :=
  (storeKeys s).Nodup ∧ (storeAddrs s).Nodup

/-- Concrete fixture: a stored group with `memsize = 2` (any value other than
the PUT parser default 0.5), used to evaluate the handlers on explicit
inputs. -/
def exGroup : GroupRec :=
  { id := "g1", name := "A", memsize := 2, type := "memcached",
    state := ⟨"1", "OK", "passing"⟩,
    instances := [⟨"g1_1", "1", netAddr + 1, "localhost"⟩,
                  ⟨"g1_2", "2", netAddr + 2, "localhost"⟩] }

/-- Concrete fixture: a store holding just `exGroup` under key "g1". -/
def exStore : Store := [("g1", exGroup)]

/-- Concrete fixture: the group `create_group` builds on an empty store for
identifier "g0", name "X", memsize 1. -/
def exCreated : GroupRec :=
  { id := "g0", name := "X", memsize := 1, type := "memcached",
    state := ⟨"1", "OK", "passing"⟩,
    instances := [⟨"g0_1", "1", allocSubnetBase + 1, "localhost"⟩,
                  ⟨"g0_2", "2", allocSubnetBase + 2, "localhost"⟩] }

/-- Concrete fixture: the group `GroupList.post` builds on an empty store for
identifier "p0" when the body carries name "X" and no memsize (default 0.5
applies). -/
def postCreated : GroupRec :=
  { id := "p0", name := "X", memsize := 1 / 2, type := "memcached",
    state := ⟨"1", "OK", "passing"⟩,
    instances := [⟨"p0_1", "1", allocSubnetBase + 1, "localhost"⟩,
                  ⟨"p0_2", "2", allocSubnetBase + 2, "localhost"⟩] }
theorem scanFirst_eq_some_iff (p : Nat → Bool) (start fuel n : Nat) :
    scanFirst p start fuel = some n ↔
      start ≤ n ∧ n < start + fuel ∧ p n = true ∧
        ∀ m, start ≤ m → m < n → p m = false := by
  induction fuel generalizing start with
  | zero =>
    simp only [scanFirst]
    constructor
    · intro h; exact absurd h (by simp)
    · rintro ⟨h1, h2, _⟩; omega
  | succ k ih =>
    rw [scanFirst]
    by_cases h : p start = true
    · rw [if_pos h]
      constructor
      · intro h1
        injection h1 with h1
        subst h1
        exact ⟨Nat.le_refl _, by omega, h, fun m hm1 hm2 => by omega⟩
      · rintro ⟨h1, h2, h3, h4⟩
        rcases Nat.lt_or_ge start n with hlt | hge
        · have := h4 start (Nat.le_refl _) hlt
          rw [this] at h; exact absurd h (by simp)
        · have : n = start := Nat.le_antisymm (by omega) h1
          subst this; rfl
    · rw [if_neg h, ih]
      constructor
      · rintro ⟨h1, h2, h3, h4⟩
        refine ⟨by omega, by omega, h3, fun m hm1 hm2 => ?_⟩
        rcases Nat.eq_or_lt_of_le hm1 with heq | hm
        · subst heq; exact Bool.eq_false_iff.mpr h
        · exact h4 m hm hm2
      · rintro ⟨h1, h2, h3, h4⟩
        have hne : n ≠ start := by rintro rfl; exact h h3
        exact ⟨by omega, by omega, h3, fun m hm1 hm2 => h4 m (by omega) hm2⟩

theorem scanFirst_eq_none_iff (p : Nat → Bool) (start fuel : Nat) :
    scanFirst p start fuel = none ↔
      ∀ m, start ≤ m → m < start + fuel → p m = false := by
  induction fuel generalizing start with
  | zero =>
    simp only [scanFirst]
    constructor
    · intro _ m h1 h2; omega
    · intro _; exact trivial
  | succ k ih =>
    rw [scanFirst]
    by_cases h : p start = true
    · rw [if_pos h]
      constructor
      · intro h1; exact absurd h1 (by simp)
      · intro h1
        have := h1 start (Nat.le_refl _) (by omega)
        rw [this] at h; exact absurd h (by simp)
    · rw [if_neg h, ih]
      constructor
      · intro h1 m hm1 hm2
        rcases Nat.eq_or_lt_of_le hm1 with heq | hm
        · subst heq; exact Bool.eq_false_iff.mpr h
        · exact h1 m hm (by omega)
      · intro h1 m hm1 hm2
        exact h1 m (by omega) (by omega)

theorem addrAvailable_eq_false_iff (s : Store) (skip : List Nat) (a : Nat) :
    addrAvailable s skip a = false ↔
      a = netAddr ∨ a ∈ storeAddrs s ∨ a ∈ skip := by
  simp [addrAvailable]
  tauto

theorem addrAvailable_eq_true_iff (s : Store) (skip : List Nat) (a : Nat) :
    addrAvailable s skip a = true ↔
      ¬(a = netAddr ∨ a ∈ storeAddrs s ∨ a ∈ skip) := by
  simp [addrAvailable]
  tauto

theorem allocate_ip_eq_some_iff (s : Store) (skip : List Nat) (a : Nat) :
    allocate_ip s skip = some a ↔
      inSubnet a ∧ ¬(a = netAddr ∨ a ∈ storeAddrs s ∨ a ∈ skip) ∧
        ∀ b, inSubnet b → b < a → (b = netAddr ∨ b ∈ storeAddrs s ∨ b ∈ skip) := by
  rw [allocate_ip, scanFirst_eq_some_iff]
  unfold inSubnet
  constructor
  · rintro ⟨h1, h2, h3, h4⟩
    refine ⟨⟨h1, h2⟩, (addrAvailable_eq_true_iff s skip a).mp h3, fun b hb hba => ?_⟩
    exact (addrAvailable_eq_false_iff s skip b).mp (h4 b hb.1 hba)
  · rintro ⟨⟨h1, h2⟩, h3, h4⟩
    refine ⟨h1, h2, (addrAvailable_eq_true_iff s skip a).mpr h3, fun m hm1 hm2 => ?_⟩
    exact (addrAvailable_eq_false_iff s skip m).mpr (h4 m ⟨hm1, by omega⟩ hm2)

theorem allocate_ip_eq_none_iff (s : Store) (skip : List Nat) :
    allocate_ip s skip = none ↔
      ∀ a, inSubnet a → (a = netAddr ∨ a ∈ storeAddrs s ∨ a ∈ skip) := by
  rw [allocate_ip, scanFirst_eq_none_iff]
  unfold inSubnet
  constructor
  · intro h a ha
    exact (addrAvailable_eq_false_iff s skip a).mp (h a ha.1 ha.2)
  · intro h m h1 h2
    exact (addrAvailable_eq_false_iff s skip m).mpr (h m ⟨h1, h2⟩)

theorem allocate_ip_some_props (s : Store) (skip : List Nat) (a : Nat)
    (h : allocate_ip s skip = some a) :
    inSubnet a ∧ a ≠ netAddr ∧ a ∉ storeAddrs s ∧ a ∉ skip := by
  rw [allocate_ip, scanFirst_eq_some_iff] at h
  obtain ⟨h1, h2, h3, _⟩ := h
  have h5 := (addrAvailable_eq_true_iff s skip a).mp h3
  push_neg at h5
  exact ⟨⟨h1, h2⟩, h5.1, h5.2.1, h5.2.2⟩

theorem storeAddrs_cons (p : String × GroupRec) (t : Store) :
    storeAddrs (p :: t) = p.2.instances.map (fun i => i.addr) ++ storeAddrs t := rfl

theorem storeKeys_cons (p : String × GroupRec) (t : Store) :
    storeKeys (p :: t) = p.1 :: storeKeys t := rfl

theorem storeAddrs_append (s t : Store) :
    storeAddrs (s ++ t) = storeAddrs s ++ storeAddrs t :=
  List.flatMap_append s t _

theorem storeAddrs_delete_sublist (s : Store) (gid : String) :
    (storeAddrs (storeDelete s gid)).Sublist (storeAddrs s) := by
  induction s with
  | nil => exact List.Sublist.refl _
  | cons p t ih =>
    by_cases h : p.1 == gid
    · rw [storeDelete, List.filter_cons, if_neg (by simp [h]), storeAddrs_cons]
      exact ih.trans (List.sublist_append_right _ _)
    · rw [storeDelete, List.filter_cons, if_pos (by simp [h]), storeAddrs_cons,
        storeAddrs_cons]
      exact List.Sublist.append_left ih _

theorem storeKeys_delete (s : Store) (gid : String) :
    storeKeys (storeDelete s gid) = (storeKeys s).filter (fun k => !(k == gid)) := by
  induction s with
  | nil => rfl
  | cons p t ih =>
    by_cases h : p.1 == gid
    · rw [storeDelete, List.filter_cons, if_neg (by simp [h]), storeKeys_cons,
        List.filter_cons, if_neg (by simp [h])]
      exact ih
    · rw [storeDelete, List.filter_cons, if_pos (by simp [h]), storeKeys_cons,
        storeKeys_cons, List.filter_cons, if_pos (by simp [h])]
      exact congrArg (List.cons p.1) ih

theorem not_mem_storeKeys_delete (s : Store) (gid : String) :
    gid ∉ storeKeys (storeDelete s gid) := by
  rw [storeKeys_delete]
  intro h
  have := List.of_mem_filter h
  simp at this

theorem storeKeys_insert (s : Store) (gid : String) (g : GroupRec) :
    storeKeys (storeInsert s gid g) = storeKeys (storeDelete s gid) ++ [gid] := by
  rw [storeInsert]
  unfold storeKeys
  rw [List.map_append]
  rfl

theorem keysNodup_delete (s : Store) (gid : String) (h : (storeKeys s).Nodup) :
    (storeKeys (storeDelete s gid)).Nodup := by
  rw [storeKeys_delete]
  exact h.filter _

theorem keysNodup_insert (s : Store) (gid : String) (g : GroupRec)
    (h : (storeKeys s).Nodup) : (storeKeys (storeInsert s gid g)).Nodup := by
  rw [storeKeys_insert, List.nodup_append]
  refine ⟨keysNodup_delete s gid h, List.nodup_singleton _, ?_⟩
  intro k hk hk2
  rw [List.mem_singleton] at hk2
  subst hk2
  exact not_mem_storeKeys_delete _ _ hk

theorem storeLookup_cons (p : String × GroupRec) (t : Store) (k : String) :
    storeLookup (p :: t) k = if p.1 == k then some p.2 else storeLookup t k := by
  unfold storeLookup
  rw [List.find?_cons]
  by_cases h : p.1 == k
  · rw [h]; simp
  · rw [Bool.eq_false_iff.mpr h]; simp [Bool.eq_false_iff.mpr h]

theorem storeLookup_append (s t : Store) (k : String) :
    storeLookup (s ++ t) k = (storeLookup s k).or (storeLookup t k) := by
  unfold storeLookup
  rw [List.find?_append]
  cases List.find? (fun p => p.1 == k) s <;> simp

theorem storeLookup_delete_self (s : Store) (gid : String) :
    storeLookup (storeDelete s gid) gid = none := by
  unfold storeLookup storeDelete
  have : List.find? (fun p => p.1 == gid) (s.filter (fun p => !(p.1 == gid))) = none := by
    rw [List.find?_eq_none]
    intro x hx
    have := List.of_mem_filter hx
    simp at this
    simp [this]
  rw [this]
  rfl

theorem storeLookup_delete_ne (s : Store) (gid k : String) (h : k ≠ gid) :
    storeLookup (storeDelete s gid) k = storeLookup s k := by
  induction s with
  | nil => rfl
  | cons p t ih =>
    by_cases hp : p.1 == gid
    · have hpk : ¬(p.1 == k) = true := by
        simp at hp ⊢
        rw [hp]
        exact fun hk => h hk.symm
      rw [storeDelete, List.filter_cons, if_neg (by simp [hp])]
      rw [storeLookup_cons, if_neg hpk]
      exact ih
    · rw [storeDelete, List.filter_cons, if_pos (by simp [hp])]
      rw [storeLookup_cons, storeLookup_cons]
      by_cases hpk : p.1 == k
      · rw [if_pos hpk, if_pos hpk]
      · rw [if_neg hpk, if_neg hpk]
        exact ih

theorem storeLookup_insert_self (s : Store) (gid : String) (g : GroupRec) :
    storeLookup (storeInsert s gid g) gid = some g := by
  rw [storeInsert, storeLookup_append, storeLookup_delete_self]
  rw [Option.none_or]
  rw [storeLookup_cons, if_pos (by simp)]

theorem storeLookup_insert_ne (s : Store) (gid k : String) (g : GroupRec)
    (h : k ≠ gid) : storeLookup (storeInsert s gid g) k = storeLookup s k := by
  rw [storeInsert, storeLookup_append, storeLookup_delete_ne s gid k h]
  have : storeLookup [(gid, g)] k = none := by
    rw [storeLookup_cons, if_neg (by simp; exact fun hk => h hk.symm)]
    rfl
  rw [this, Option.or_none]

theorem store_perm_delete (s : Store) (gid : String) (g : GroupRec)
    (hk : (storeKeys s).Nodup) (hl : storeLookup s gid = some g) :
    s.Perm ((gid, g) :: storeDelete s gid) := by
  induction s with
  | nil => exact absurd hl (by simp [storeLookup])
  | cons p t ih =>
    rw [storeLookup_cons] at hl
    rw [storeKeys_cons, List.nodup_cons] at hk
    by_cases hp : p.1 == gid
    · rw [if_pos hp] at hl
      injection hl with hl
      have hpeq : p.1 = gid := by simpa using hp
      have hnott : ∀ q ∈ t, (fun q => !(q.1 == gid)) q = true := by
        intro q hq
        have : q.1 ≠ gid := by
          intro hq1
          exact hk.1 (hpeq ▸ hq1 ▸ List.mem_map_of_mem (fun r => r.1) hq)
        simp [this]
      have hfilter : storeDelete (p :: t) gid = t := by
        rw [storeDelete, List.filter_cons, if_neg (by simp [hp])]
        exact List.filter_eq_self.mpr hnott
      rw [hfilter]
      have hpg : (gid, g) = p := by
        obtain ⟨p1, p2⟩ := p
        simp at hpeq hl ⊢
        exact ⟨hpeq.symm, hl.symm⟩
      rw [hpg]
    · rw [if_neg hp] at hl
      have hperm := ih hk.2 hl
      rw [storeDelete, List.filter_cons, if_pos (by simp [hp])]
      exact (hperm.cons p).trans (List.Perm.swap _ _ _)

theorem storeAddrs_perm_delete (s : Store) (gid : String) (g : GroupRec)
    (hk : (storeKeys s).Nodup) (hl : storeLookup s gid = some g) :
    (storeAddrs s).Perm
      (g.instances.map (fun i => i.addr) ++ storeAddrs (storeDelete s gid)) := by
  have h := (store_perm_delete s gid g hk hl).flatMap_right
    (fun p => p.2.instances.map (fun i => i.addr))
  exact h

theorem applyName_none (g : GroupRec) : applyName g none = g := rfl

theorem applyName_empty (g : GroupRec) : applyName g (some "") = g := by
  unfold applyName; simp

theorem applyName_of_ne (g : GroupRec) (n : String) (h : n ≠ "") :
    applyName g (some n) = { g with name := n } := by
  unfold applyName; simp [h]

theorem applyMemsize_zero (g : GroupRec) : applyMemsize g 0 = g := by
  unfold applyMemsize; simp

theorem applyMemsize_of_ne (g : GroupRec) (m : Rat) (h : m ≠ 0) :
    applyMemsize g m = { g with memsize := m } := by
  unfold applyMemsize; simp [h]

theorem applyName_frame (g : GroupRec) (n : Option String) :
    (applyName g n).id = g.id ∧ (applyName g n).memsize = g.memsize ∧
      (applyName g n).type = g.type ∧ (applyName g n).state = g.state ∧
      (applyName g n).instances = g.instances := by
  unfold applyName
  cases n with
  | none => exact ⟨rfl, rfl, rfl, rfl, rfl⟩
  | some v => by_cases h : v = "" <;> simp [h]

theorem applyMemsize_frame (g : GroupRec) (m : Rat) :
    (applyMemsize g m).id = g.id ∧ (applyMemsize g m).name = g.name ∧
      (applyMemsize g m).type = g.type ∧ (applyMemsize g m).state = g.state ∧
      (applyMemsize g m).instances = g.instances := by
  unfold applyMemsize
  by_cases h : m = 0 <;> simp [h]

theorem create_group_eq_some (s : Store) (gid name : String) (ms : Rat)
    (g : GroupRec) (h : create_group s gid name ms = some g) :
    ∃ ip1 ip2, allocate_ip s [] = some ip1 ∧ allocate_ip s [ip1] = some ip2 ∧
      g = { id := gid, name := name, memsize := ms, type := "memcached",
            state := ⟨"1", "OK", "passing"⟩,
            instances := [⟨gid ++ "_1", "1", ip1, "localhost"⟩,
                          ⟨gid ++ "_2", "2", ip2, "localhost"⟩] } := by
  unfold create_group at h
  split at h
  · exact absurd h (by simp)
  · rename_i ip1 h1
    split at h
    · exact absurd h (by simp)
    · rename_i ip2 h2
      injection h with h
      exact ⟨ip1, ip2, h1, h2, h.symm⟩

theorem Group_put_unknown (s : Store) (gid : String) (body : PutBody)
    (h : storeLookup s gid = none) :
    Group_put s gid body = Except.error (ApiError.keyError gid) := by
  unfold Group_put
  rw [h]

theorem Group_put_ok (s : Store) (gid : String) (body : PutBody)
    (g2 : GroupRec) (st : Nat) (s1 : Store)
    (h : Group_put s gid body = Except.ok (g2, st, s1)) :
    ∃ g, storeLookup s gid = some g ∧
      g2 = applyMemsize (applyName g body.name) (body.memsize.getD (1 / 2)) ∧
      st = 201 ∧ s1 = storeInsert s gid g2 := by
  unfold Group_put parsePutArgs at h
  cases hl : storeLookup s gid with
  | none => rw [hl] at h; exact absurd h (by simp)
  | some g =>
    rw [hl] at h
    dsimp only at h
    simp only [Except.ok.injEq, Prod.mk.injEq] at h
    obtain ⟨h1, h2, h3⟩ := h
    refine ⟨g, rfl, h1.symm, h2.symm, ?_⟩
    rw [← h1]
    exact h3.symm

theorem Group_get_eq (s : Store) (gid : String) :
    Group_get s gid =
      match storeLookup s gid with
      | some g => Except.ok g
      | none =>
        Except.error (ApiError.notFound ("group " ++ gid ++ " doesn\x27t exist")) := by
  unfold Group_get abort_if_group_doesnt_exist
  cases h : storeLookup s gid <;> rfl

theorem Group_delete_eq (s : Store) (gid : String) :
    Group_delete s gid =
      if (storeLookup s gid).isSome then Except.ok ("", 204, storeDelete s gid)
      else Except.error (ApiError.notFound ("group " ++ gid ++ " doesn\x27t exist")) := by
  unfold Group_delete abort_if_group_doesnt_exist
  cases h : storeLookup s gid <;> rfl

theorem storeInv_insert_fresh_addrs (s : Store) (gid : String) (g : GroupRec)
    (hinv : storeInv s)
    (haddrs : ∀ a ∈ g.instances.map (fun i => i.addr), a ∉ storeAddrs s)
    (hnodup : (g.instances.map (fun i => i.addr)).Nodup) :
    storeInv (storeInsert s gid g) := by
  refine ⟨keysNodup_insert s gid g hinv.1, ?_⟩
  rw [storeInsert, storeAddrs_append, List.nodup_append]
  refine ⟨(storeAddrs_delete_sublist s gid).nodup hinv.2, ?_, ?_⟩
  · simpa [storeAddrs] using hnodup
  · intro a ha hb
    have hmem : a ∈ storeAddrs s := (storeAddrs_delete_sublist s gid).subset ha
    have hb2 : a ∈ g.instances.map (fun i => i.addr) := by
      simpa [storeAddrs] using hb
    exact haddrs a hb2 hmem

theorem storeInv_insert_same_addrs (s : Store) (gid : String) (g g2 : GroupRec)
    (hinv : storeInv s) (hl : storeLookup s gid = some g)
    (heq : g2.instances = g.instances) :
    storeInv (storeInsert s gid g2) := by
  refine ⟨keysNodup_insert s gid g2 hinv.1, ?_⟩
  rw [storeInsert, storeAddrs_append]
  have hperm := storeAddrs_perm_delete s gid g hinv.1 hl
  have hnodup := hperm.nodup hinv.2
  have hcomm := (@List.perm_append_comm _ (g.instances.map (fun i => i.addr))
    (storeAddrs (storeDelete s gid))).nodup hnodup
  simpa [storeAddrs, heq] using hcomm

theorem storeInv_applyOp (s : Store) (op : Op) (h : storeInv s) :
    storeInv (applyOp s op) := by
  cases op with
  | create gid name ms =>
    cases hc : create_group s gid name ms with
    | none => simpa only [applyOp, hc] using h
    | some g =>
      simp only [applyOp, hc]
      obtain ⟨ip1, ip2, h1, h2, hg⟩ := create_group_eq_some s gid name ms g hc
      obtain ⟨_, _, hip1, _⟩ := allocate_ip_some_props s [] ip1 h1
      obtain ⟨_, _, hip2, hskip⟩ := allocate_ip_some_props s [ip1] ip2 h2
      apply storeInv_insert_fresh_addrs s g.id g h
      · intro a ha
        rw [hg] at ha
        simp at ha
        rcases ha with rfl | rfl
        · exact hip1
        · exact hip2
      · rw [hg]
        simp
        intro heq
        exact hskip (by simp [heq])
  | put gid body =>
    cases hp : Group_put s gid body with
    | error e => simpa only [applyOp, hp] using h
    | ok r =>
      obtain ⟨g2, st, s1⟩ := r
      obtain ⟨g, hl, hg2, hst, hs1⟩ := Group_put_ok s gid body g2 st s1 hp
      simp only [applyOp, hp]
      rw [hs1]
      apply storeInv_insert_same_addrs s gid g g2 h hl
      rw [hg2]
      have hf1 := (applyMemsize_frame (applyName g body.name) (body.memsize.getD (1 / 2))).2.2.2.2
      have hf2 := (applyName_frame g body.name).2.2.2.2
      rw [hf1, hf2]
  | delete gid =>
    by_cases hl : (storeLookup s gid).isSome
    · have hd : Group_delete s gid = Except.ok ("", 204, storeDelete s gid) := by
        rw [Group_delete_eq, if_pos hl]
      simp only [applyOp, hd]
      exact ⟨keysNodup_delete s gid h.1, (storeAddrs_delete_sublist s gid).nodup h.2⟩
    · have hd : Group_delete s gid =
          Except.error (ApiError.notFound ("group " ++ gid ++ " doesn\x27t exist")) := by
        rw [Group_delete_eq, if_neg hl]
      simp only [applyOp, hd]
      exact h

theorem storeInv_foldl (s : Store) (ops : List Op) (h : storeInv s) :
    storeInv (ops.foldl applyOp s) := by
  induction ops generalizing s with
  | nil => exact h
  | cons op rest ih => exact ih (applyOp s op) (storeInv_applyOp s op h)

theorem storeInv_nil : storeInv [] := by
  constructor <;> exact List.nodup_nil

theorem storeInv_seedStore (gid1 gid2 : String) : storeInv (seedStore gid1 gid2) :=
  storeInv_applyOp _ _ (storeInv_applyOp _ _ storeInv_nil)

/-- C1, code bug: for a group identifier absent from the store, the update
handler fails with an unhandled `KeyError` (HTTP 500) — the store is left
unchanged, but the failure is not the 404 NotFound that the claim states,
because the source `Group.put` never calls `abort_if_group_doesnt_exist`
(while `Group.get`, shown here for contrast, does); the lookup moreover
happens only after the body is parsed, not before. -/
theorem Group_put_unknown_id_is_keyError (s : Store) (gid : String)
    (body : PutBody) (h : storeLookup s gid = none) :
    Group_put s gid body = Except.error (ApiError.keyError gid) ∧
      Group_put s gid body ≠
        Except.error (ApiError.notFound ("group " ++ gid ++ " doesn\x27t exist")) ∧
      applyOp s (Op.put gid body) = s ∧
      Group_get s gid =
        Except.error (ApiError.notFound ("group " ++ gid ++ " doesn\x27t exist")) := by
  refine ⟨Group_put_unknown s gid body h, ?_, ?_, ?_⟩
  · rw [Group_put_unknown s gid body h]
    simp
  · simp only [applyOp, Group_put_unknown s gid body h]
  · rw [Group_get_eq, h]

/-- C1 witness: the unknown-identifier update evaluated on the empty store. -/
theorem Group_put_unknown_id_is_keyError_witness :
    Group_put [] "nope" { name := some "x", memsize := none } =
      Except.error (ApiError.keyError "nope") :=
  (Group_put_unknown_id_is_keyError [] "nope" { name := some "x", memsize := none }
    rfl).1

theorem Group_put_exStore_eval :
    Group_put exStore "g1" { name := some "B", memsize := none } =
      Except.ok ({ exGroup with name := "B", memsize := 1 / 2 }, 201,
        storeInsert exStore "g1" { exGroup with name := "B", memsize := 1 / 2 }) := by
  unfold Group_put parsePutArgs
  rw [show storeLookup exStore "g1" = some exGroup from rfl]
  dsimp only
  rw [Option.getD_none, applyName_of_ne _ _ (by decide),
    applyMemsize_of_ne _ _ (by norm_num)]

/-- C2 counterexample: on a stored group with `memsize = 2`, an update that
supplies only `name` (no memsize field) produces a group with `memsize = 1/2`
— the parsed default 0.5 is truthy and therefore applied — so the memsize is
NOT left equal to its value before the update. -/
theorem put_name_only_changes_memsize_cex :
    storeLookup exStore "g1" = some exGroup ∧
      Group_put exStore "g1" { name := some "B", memsize := none } =
        Except.ok ({ exGroup with name := "B", memsize := 1 / 2 }, 201,
          storeInsert exStore "g1" { exGroup with name := "B", memsize := 1 / 2 }) ∧
      ({ exGroup with name := "B", memsize := 1 / 2 } : GroupRec).memsize ≠
        exGroup.memsize := by
  refine ⟨rfl, Group_put_exStore_eval, show (1 / 2 : Rat) ≠ 2 by norm_num⟩

/-- C2 amended: for every stored group, an update request that carries no
`memsize` field sets the memsize to the parsed default 0.5 (the default is
truthy and hence applied); memsize is thus left unchanged only when it was
already 0.5. -/
theorem Group_put_name_only_sets_default_memsize (s : Store) (gid : String)
    (body : PutBody) (g2 : GroupRec) (st : Nat) (s1 : Store)
    (hms : body.memsize = none)
    (hput : Group_put s gid body = Except.ok (g2, st, s1)) :
    g2.memsize = 1 / 2 := by
  obtain ⟨g, hl, hg2, _, _⟩ := Group_put_ok s gid body g2 st s1 hput
  rw [hg2, hms, Option.getD_none, applyMemsize_of_ne _ _ (by norm_num)]

/-- C2 witness: the amended statement evaluated on the fixture store. -/
theorem Group_put_name_only_sets_default_memsize_witness :
    ({ exGroup with name := "B", memsize := 1 / 2 } : GroupRec).memsize = 1 / 2 :=
  Group_put_name_only_sets_default_memsize exStore "g1"
    { name := some "B", memsize := none }
    { exGroup with name := "B", memsize := 1 / 2 } 201
    (storeInsert exStore "g1" { exGroup with name := "B", memsize := 1 / 2 })
    rfl Group_put_exStore_eval

/-- C6: for every stored group, an update with `memsize` equal to 0 leaves
the memsize unchanged (zero is falsy, so the assignment is skipped), while an
update with any nonzero `memsize` sets the memsize to that value. -/
theorem Group_put_memsize_semantics (s : Store) (gid : String) (body : PutBody)
    (g g2 : GroupRec) (st : Nat) (s1 : Store)
    (hl : storeLookup s gid = some g)
    (hput : Group_put s gid body = Except.ok (g2, st, s1)) :
    (body.memsize = some 0 → g2.memsize = g.memsize) ∧
      (∀ v : Rat, body.memsize = some v → v ≠ 0 → g2.memsize = v) := by
  obtain ⟨g', hl', hg2, _, _⟩ := Group_put_ok s gid body g2 st s1 hput
  rw [hl] at hl'
  injection hl' with hl'
  subst hl'
  constructor
  · intro hms
    rw [hg2, hms, Option.getD_some, applyMemsize_zero]
    exact (applyName_frame g body.name).2.1
  · intro v hms hv
    rw [hg2, hms, Option.getD_some, applyMemsize_of_ne _ _ hv]

theorem Group_put_exStore_eval3 :
    Group_put exStore "g1" { name := none, memsize := some 3 } =
      Except.ok ({ exGroup with memsize := 3 }, 201,
        storeInsert exStore "g1" { exGroup with memsize := 3 }) := by
  unfold Group_put parsePutArgs
  rw [show storeLookup exStore "g1" = some exGroup from rfl]
  dsimp only
  rw [Option.getD_some, applyName_none, applyMemsize_of_ne _ _ (by norm_num)]

/-- C6 witness: updating the fixture group with memsize 3 yields memsize 3. -/
theorem Group_put_memsize_semantics_witness :
    ({ exGroup with memsize := 3 } : GroupRec).memsize = 3 :=
  (Group_put_memsize_semantics exStore "g1" { name := none, memsize := some 3 }
      exGroup { exGroup with memsize := 3 } 201
      (storeInsert exStore "g1" { exGroup with memsize := 3 })
      rfl Group_put_exStore_eval3).2 3 rfl (by norm_num)

/-- C10: for every stored group, an update whose `name` field is present but
is the empty string leaves the name unchanged: the handler applies `name`
only when it is truthy, and the empty string is falsy. -/
theorem Group_put_empty_name_unchanged (s : Store) (gid : String) (body : PutBody)
    (g g2 : GroupRec) (st : Nat) (s1 : Store)
    (hl : storeLookup s gid = some g)
    (hname : body.name = some "")
    (hput : Group_put s gid body = Except.ok (g2, st, s1)) :
    g2.name = g.name := by
  obtain ⟨g', hl', hg2, _, _⟩ := Group_put_ok s gid body g2 st s1 hput
  rw [hl] at hl'
  injection hl' with hl'
  subst hl'
  rw [hg2, hname, applyName_empty]
  exact (applyMemsize_frame g _).2.1

theorem Group_put_exStore_evalEmpty :
    Group_put exStore "g1" { name := some "", memsize := some 3 } =
      Except.ok ({ exGroup with memsize := 3 }, 201,
        storeInsert exStore "g1" { exGroup with memsize := 3 }) := by
  unfold Group_put parsePutArgs
  rw [show storeLookup exStore "g1" = some exGroup from rfl]
  dsimp only
  rw [Option.getD_some, applyName_empty, applyMemsize_of_ne _ _ (by norm_num)]

/-- C10 witness: an empty-string name update on the fixture group keeps the
name "A". -/
theorem Group_put_empty_name_unchanged_witness :
    ({ exGroup with memsize := 3 } : GroupRec).name = exGroup.name :=
  Group_put_empty_name_unchanged exStore "g1"
    { name := some "", memsize := some 3 }
    exGroup { exGroup with memsize := 3 } 201
    (storeInsert exStore "g1" { exGroup with memsize := 3 })
    rfl rfl Group_put_exStore_evalEmpty

/-- C9: for every stored group, a successful update changes at most `name`
and `memsize` — `id`, `type`, `state` and `instances` are returned and stored
unchanged — and, more generally, after any single operation (a create with a
fresh identifier, any update, or any delete) every group still present in the
store retains its original `id`, `type`, `state` and `instances`. -/
theorem put_only_mutates_name_memsize (s : Store) (gid : String) (g : GroupRec)
    (hl : storeLookup s gid = some g) :
    (∀ body g2 st s1, Group_put s gid body = Except.ok (g2, st, s1) →
        g2.id = g.id ∧ g2.type = g.type ∧ g2.state = g.state ∧
          g2.instances = g.instances ∧ storeLookup s1 gid = some g2) ∧
      (∀ op : Op,
          (∀ gid2 name ms, op = Op.create gid2 name ms →
            storeLookup s gid2 = none) →
          ∀ g3, storeLookup (applyOp s op) gid = some g3 →
            g3.id = g.id ∧ g3.type = g.type ∧ g3.state = g.state ∧
              g3.instances = g.instances) := by
  have hframe : ∀ g0 (body : PutBody),
      (applyMemsize (applyName g0 body.name) (body.memsize.getD (1 / 2))).id = g0.id ∧
      (applyMemsize (applyName g0 body.name) (body.memsize.getD (1 / 2))).type = g0.type ∧
      (applyMemsize (applyName g0 body.name) (body.memsize.getD (1 / 2))).state = g0.state ∧
      (applyMemsize (applyName g0 body.name) (body.memsize.getD (1 / 2))).instances = g0.instances := by
    intro g0 body
    obtain ⟨m1, _, m3, m4, m5⟩ := applyMemsize_frame (applyName g0 body.name) (body.memsize.getD (1 / 2))
    obtain ⟨n1, _, n3, n4, n5⟩ := applyName_frame g0 body.name
    exact ⟨m1.trans n1, m3.trans n3, m4.trans n4, m5.trans n5⟩
  constructor
  · intro body g2 st s1 hput
    obtain ⟨g', hl', hg2, _, hs1⟩ := Group_put_ok s gid body g2 st s1 hput
    rw [hl] at hl'
    injection hl' with hl'
    subst hl'
    obtain ⟨f1, f2, f3, f4⟩ := hframe g body
    rw [hg2]
    refine ⟨f1, f2, f3, f4, ?_⟩
    rw [hs1, hg2, storeLookup_insert_self]
  · intro op hfresh g3 hg3
    cases op with
    | create gid2 name ms =>
      have hnone := hfresh gid2 name ms rfl
      have hne : gid ≠ gid2 := by
        intro heq
        rw [heq, hnone] at hl
        exact absurd hl (by simp)
      cases hc : create_group s gid2 name ms with
      | none =>
        rw [applyOp] at hg3
        simp only [hc] at hg3
        rw [hg3] at hl
        injection hl with hl
        rw [← hl]
        exact ⟨rfl, rfl, rfl, rfl⟩
      | some gnew =>
        obtain ⟨ip1, ip2, _, _, hgnew⟩ := create_group_eq_some s gid2 name ms gnew hc
        have hid : gnew.id = gid2 := by rw [hgnew]
        rw [applyOp] at hg3
        simp only [hc] at hg3
        rw [hid, storeLookup_insert_ne s gid2 gid gnew hne] at hg3
        rw [hg3] at hl
        injection hl with hl
        rw [← hl]
        exact ⟨rfl, rfl, rfl, rfl⟩
    | put gid2 body =>
      cases hp : Group_put s gid2 body with
      | error e =>
        rw [applyOp] at hg3
        simp only [hp] at hg3
        rw [hg3] at hl
        injection hl with hl
        rw [← hl]
        exact ⟨rfl, rfl, rfl, rfl⟩
      | ok r =>
        obtain ⟨g2, st, s1⟩ := r
        obtain ⟨g0, hl0, hg2, _, hs1⟩ := Group_put_ok s gid2 body g2 st s1 hp
        rw [applyOp] at hg3
        simp only [hp] at hg3
        rw [hs1] at hg3
        by_cases heq : gid = gid2
        · subst heq
          rw [storeLookup_insert_self] at hg3
          injection hg3 with hg3
          rw [hl] at hl0
          injection hl0 with hl0
          subst hl0
          obtain ⟨f1, f2, f3, f4⟩ := hframe g body
          rw [← hg3, hg2]
          exact ⟨f1, f2, f3, f4⟩
        · rw [storeLookup_insert_ne s gid2 gid g2 heq] at hg3
          rw [hg3] at hl
          injection hl with hl
          rw [← hl]
          exact ⟨rfl, rfl, rfl, rfl⟩
    | delete gid2 =>
      by_cases hsome : (storeLookup s gid2).isSome
      · have hd : Group_delete s gid2 = Except.ok ("", 204, storeDelete s gid2) := by
          rw [Group_delete_eq, if_pos hsome]
        rw [applyOp] at hg3
        simp only [hd] at hg3
        by_cases heq : gid = gid2
        · subst heq
          rw [storeLookup_delete_self] at hg3
          exact absurd hg3 (by simp)
        · rw [storeLookup_delete_ne s gid2 gid heq] at hg3
          rw [hg3] at hl
          injection hl with hl
          rw [← hl]
          exact ⟨rfl, rfl, rfl, rfl⟩
      · have hd : Group_delete s gid2 =
            Except.error (ApiError.notFound ("group " ++ gid2 ++ " doesn\x27t exist")) := by
          rw [Group_delete_eq, if_neg hsome]
        rw [applyOp] at hg3
        simp only [hd] at hg3
        rw [hg3] at hl
        injection hl with hl
        rw [← hl]
        exact ⟨rfl, rfl, rfl, rfl⟩

/-- C9 witness: a memsize-only update on the fixture store preserves the
identity fields. -/
theorem put_only_mutates_name_memsize_witness :
    ({ exGroup with memsize := 3 } : GroupRec).id = exGroup.id ∧
      ({ exGroup with memsize := 3 } : GroupRec).type = exGroup.type ∧
      ({ exGroup with memsize := 3 } : GroupRec).state = exGroup.state ∧
      ({ exGroup with memsize := 3 } : GroupRec).instances = exGroup.instances ∧
      storeLookup (storeInsert exStore "g1" { exGroup with memsize := 3 }) "g1" =
        some { exGroup with memsize := 3 } :=
  (put_only_mutates_name_memsize exStore "g1" exGroup rfl).1
    { name := none, memsize := some 3 } { exGroup with memsize := 3 } 201
    (storeInsert exStore "g1" { exGroup with memsize := 3 })
    Group_put_exStore_eval3

/-- C3: after any sequence of create, update and delete operations starting
from the seeded store (creates that hit allocator exhaustion leave the store
unchanged), no two instance records across all stored groups share an `addr`
value. -/
theorem storeAddrs_nodup_after_ops (gid1 gid2 : String) (ops : List Op) :
    (storeAddrs (ops.foldl applyOp (seedStore gid1 gid2))).Nodup :=
  (storeInv_foldl (seedStore gid1 gid2) ops (storeInv_seedStore gid1 gid2)).2

/-- C4: the allocator returns `some a` exactly when `a` is a subnet address
that is neither the network address, nor recorded on any stored instance, nor
in the exclusion list, and every smaller subnet address is unavailable (so
the scan is in ascending numeric order and yields the first free address);
and it returns `none` exactly when every subnet address is unavailable. -/
theorem allocate_ip_characterization (s : Store) (skip : List Nat) :
    (∀ a, allocate_ip s skip = some a ↔
        inSubnet a ∧ ¬(a = netAddr ∨ a ∈ storeAddrs s ∨ a ∈ skip) ∧
          ∀ b, inSubnet b → b < a →
            (b = netAddr ∨ b ∈ storeAddrs s ∨ b ∈ skip)) ∧
      (allocate_ip s skip = none ↔
        ∀ a, inSubnet a → (a = netAddr ∨ a ∈ storeAddrs s ∨ a ∈ skip)) :=
  ⟨fun a => allocate_ip_eq_some_iff s skip a, allocate_ip_eq_none_iff s skip⟩

/-- C4 witness: on the empty store the allocator yields the first address
after the network address, 172.20.0.1. -/
theorem allocate_ip_characterization_witness :
    allocate_ip [] [] = some (allocSubnetBase + 1) :=
  ((allocate_ip_characterization [] []).1 (allocSubnetBase + 1)).mpr
    ⟨by decide, by decide,
      fun b hb hb2 =>
        Or.inl (by unfold inSubnet netAddr allocSubnetBase at *; omega)⟩

/-- C5: every successful group creation yields exactly two instance records
with distinct addresses, both inside the subnet 172.20.0.0/16, neither equal
to the network address 172.20.0.0, and with instance identifiers
`{group_id}_1` and `{group_id}_2`. -/
theorem create_group_instances_spec (s : Store) (gid name : String) (ms : Rat)
    (g : GroupRec) (h : create_group s gid name ms = some g) :
    ∃ i1 i2, g.instances = [i1, i2] ∧ i1.addr ≠ i2.addr ∧
      inSubnet i1.addr ∧ inSubnet i2.addr ∧
      i1.addr ≠ netAddr ∧ i2.addr ≠ netAddr ∧
      i1.id = gid ++ "_1" ∧ i2.id = gid ++ "_2" := by
  obtain ⟨ip1, ip2, h1, h2, hg⟩ := create_group_eq_some s gid name ms g h
  obtain ⟨hin1, hn1, _, _⟩ := allocate_ip_some_props s [] ip1 h1
  obtain ⟨hin2, hn2, _, hskip⟩ := allocate_ip_some_props s [ip1] ip2 h2
  subst hg
  refine ⟨_, _, rfl, ?_, hin1, hin2, hn1, hn2, rfl, rfl⟩
  intro heq
  dsimp only at heq
  exact hskip (by simp [← heq])

/-- C5 witness: the creation evaluated on the empty store. -/
theorem create_group_instances_spec_witness :
    ∃ i1 i2, exCreated.instances = [i1, i2] ∧ i1.addr ≠ i2.addr ∧
      inSubnet i1.addr ∧ inSubnet i2.addr ∧
      i1.addr ≠ netAddr ∧ i2.addr ≠ netAddr ∧
      i1.id = "g0" ++ "_1" ∧ i2.id = "g0" ++ "_2" :=
  create_group_instances_spec [] "g0" "X" 1 exCreated rfl

theorem GroupList_post_ok (s : Store) (gid : String) (body : PostBody)
    (g : GroupRec) (st : Nat) (s1 : Store)
    (h : GroupList_post s gid body = Except.ok (g, st, s1)) :
    ∃ n, body.name = some n ∧ n ≠ "" ∧
      create_group s gid n (body.memsize.getD (1 / 2)) = some g ∧
      st = 201 ∧ s1 = storeInsert s g.id g := by
  unfold GroupList_post parsePostName at h
  cases hn : body.name with
  | none =>
    rw [hn] at h
    exact Except.noConfusion h
  | some n =>
    rw [hn] at h
    dsimp only at h
    by_cases hne : n = ""
    · rw [if_pos hne] at h
      exact Except.noConfusion h
    · rw [if_neg hne] at h
      have h2 : (match create_group s gid n (body.memsize.getD (1 / 2)) with
          | none => Except.error (α := GroupRec × Nat × Store) ApiError.exhausted
          | some g => pure (g, 201, storeInsert s g.id g)) =
            Except.ok (g, st, s1) := h
      cases hc : create_group s gid n (body.memsize.getD (1 / 2)) with
      | none =>
        rw [hc] at h2
        exact Except.noConfusion h2
      | some g' =>
        rw [hc] at h2
        have h' : Except.ok (α := GroupRec × Nat × Store) (ε := ApiError)
            (g', 201, storeInsert s g'.id g') = Except.ok (g, st, s1) := h2
        simp only [Except.ok.injEq, Prod.mk.injEq] at h'
        obtain ⟨hg, hst, hs1⟩ := h'
        subst hg
        exact ⟨n, rfl, hne, hc, hst.symm, hs1.symm⟩

/-- C7: the create endpoint rejects a missing or empty `name` with a 400
validation error (the requiredness handling of the third-party parser is
modelled from the spec), and on success with `memsize` absent it stores and
answers a group whose memsize is the default 0.5, with status 201. -/
theorem GroupList_post_spec (s : Store) (gid : String) (body : PostBody) :
    ((body.name = none ∨ body.name = some "") →
        GroupList_post s gid body =
          Except.error (ApiError.validation "Missing required parameter name")) ∧
      (body.memsize = none →
        ∀ g st s1, GroupList_post s gid body = Except.ok (g, st, s1) →
          g.memsize = 1 / 2 ∧ st = 201 ∧ storeLookup s1 g.id = some g) := by
  constructor
  · intro hbad
    unfold GroupList_post parsePostName
    rcases hbad with h | h <;> rw [h] <;> rfl
  · intro hms g st s1 h
    obtain ⟨n, hn, hne, hc, hst, hs1⟩ := GroupList_post_ok s gid body g st s1 h
    obtain ⟨ip1, ip2, _, _, hg⟩ :=
      create_group_eq_some s gid n (body.memsize.getD (1 / 2)) g hc
    refine ⟨?_, hst, ?_⟩
    · rw [hg, hms]
      rfl
    · rw [hs1, storeLookup_insert_self]

/-- C7 witness: a nameless POST is rejected, and a POST with name "X" and no
memsize on the empty store yields `postCreated` with memsize 0.5. -/
theorem GroupList_post_spec_witness :
    GroupList_post [] "p0" { name := none, memsize := none } =
        Except.error (ApiError.validation "Missing required parameter name") ∧
      postCreated.memsize = 1 / 2 ∧ (201 : Nat) = 201 ∧
      storeLookup (storeInsert [] postCreated.id postCreated) postCreated.id =
        some postCreated :=
  ⟨(GroupList_post_spec [] "p0" { name := none, memsize := none }).1 (Or.inl rfl),
   (GroupList_post_spec [] "p0" { name := some "X", memsize := none }).2 rfl
     postCreated 201 (storeInsert [] postCreated.id postCreated) rfl⟩

/-- C8: deleting an unknown identifier fails with a 404 whose message names
the identifier and leaves the store unchanged; deleting a stored identifier
removes the group and answers the empty body with status 204, after which a
read of the same identifier yields the 404 NotFound error. -/
theorem Group_delete_spec (s : Store) (gid : String) :
    (storeLookup s gid = none →
        Group_delete s gid =
            Except.error
              (ApiError.notFound ("group " ++ gid ++ " doesn\x27t exist")) ∧
          (∃ pre post, "group " ++ gid ++ " doesn\x27t exist" = pre ++ gid ++ post) ∧
          applyOp s (Op.delete gid) = s) ∧
      (∀ g, storeLookup s gid = some g →
        Group_delete s gid = Except.ok ("", 204, storeDelete s gid) ∧
          Group_get (storeDelete s gid) gid =
            Except.error
              (ApiError.notFound ("group " ++ gid ++ " doesn\x27t exist"))) := by
  constructor
  · intro h
    have hd : Group_delete s gid =
        Except.error (ApiError.notFound ("group " ++ gid ++ " doesn\x27t exist")) := by
      rw [Group_delete_eq, h]
      rfl
    refine ⟨hd, ⟨"group ", " doesn\x27t exist", rfl⟩, ?_⟩
    simp only [applyOp, hd]
  · intro g hg
    have hd : Group_delete s gid = Except.ok ("", 204, storeDelete s gid) := by
      rw [Group_delete_eq, hg]
      rfl
    refine ⟨hd, ?_⟩
    rw [Group_get_eq, storeLookup_delete_self]

/-- C8 witness: deleting "g1" from the fixture store succeeds and the
subsequent read fails. -/
theorem Group_delete_spec_witness :
    Group_delete exStore "g1" = Except.ok ("", 204, storeDelete exStore "g1") ∧
      Group_get (storeDelete exStore "g1") "g1" =
        Except.error
          (ApiError.notFound ("group " ++ "g1" ++ " doesn\x27t exist")) :=
  (Group_delete_spec exStore "g1").2 exGroup rfl
